import Mathlib

/-!
Verification of the PixAI generation bot's crawler core and GUI glue.

Shallow embedding of `src/crawler.py` (session management, artifact
collection, LoRA selection, active-config scraping) and `src/gui.py`
(LoRA string parsing, model/LoRA reconciliation decision).  Pure data and
control flow are translated directly; browser/OS effects are modelled as
explicit oracle inputs (cookie lists, response URL sequences, error
flags), and Python exceptions as explicit result values matching the
source's try/except structure.
-/

namespace PixAI

/-! ## Artifact collector (`crawler.py`, `image_gen_macro._handle_response`)

`IMG_PATTERN = re.compile(r"https://images-ng\.pixai\.art/gi/orig/.*")`
used with `re.match`, i.e. anchored at the start of the URL: a URL
matches exactly when it starts with the literal prefix. -/

def imgMatch (url : String) : Bool :=
  "https://images-ng.pixai.art/gi/orig/".data.isPrefixOf url.data

/-- State shared by the response handler closure: `saved_urls` (the dedup
set) and `saved_files` (paths appended after each successful save; the
filename derivation from the URL basename does not affect which responses
are saved, so each saved entry is represented by its source URL). -/
structure CollectState where
  saved_urls : List String
  saved_files : List String
deriving DecidableEq, Repr

/-- One network response, as in `_handle_response`: save if and only if
the URL matches `IMG_PATTERN` and was not already seen in this call.
The body write is assumed to succeed (file-system failures elided). -/
def handleResponse (st : CollectState) (url : String) : CollectState :=
  if imgMatch url && !(st.saved_urls.contains url) then
    { saved_urls := url :: st.saved_urls, saved_files := st.saved_files ++ [url] }
  else st

/-- Apply the handler to a whole sequence of responses, starting from the
empty state created at the top of `image_gen_macro`. -/
def runCollector (urls : List String) : CollectState :=
  urls.foldl handleResponse ⟨[], []⟩

/-! ## Artifact wait loop (`crawler.py` lines 1251-1268)

The loop polls every 0.5 s.  Time is modelled in milliseconds; `count t`
is the size of `saved_urls` at time `t`.  All three clock reads within
one iteration are identified with the post-sleep poll instant. -/

def TOTAL_TIMEOUT : Nat := 600000

def IDLE_WAIT_MS : Nat := 3000

/-- One simulation of the wait loop: `t` is elapsed ms, `lastSeen` the
poll time at which the count last changed, `prevCount` the count seen at
the previous poll.  Returns the elapsed time at which the loop exits
(either by the idle break or by the total ceiling). -/
def waitLoopAux (count : Nat → Nat) : Nat → Nat → Nat → Nat → Nat
  | 0, t, _, _ => t
  | fuel + 1, t, lastSeen, prevCount =>
    if TOTAL_TIMEOUT ≤ t then t
    else
      let t' := t + 500
      let changed := count t' ≠ prevCount
      let lastSeen' := if changed then t' else lastSeen
      let prevCount' := if changed then count t' else prevCount
      if 0 < count t' ∧ IDLE_WAIT_MS < t' - lastSeen' then t'
      else waitLoopAux count fuel t' lastSeen' prevCount'

/-- Exit time of the wait loop for a given arrival schedule.  Fuel 1201
exceeds the maximum number of iterations (600000 / 500 = 1200). -/
def waitLoopExit (count : Nat → Nat) : Nat :=
  waitLoopAux count 1201 0 0 0

/-- The C6 scenario: one matching response arrives at t = 0 s and one at
t = 1 s, none afterwards, so the dedup-set size is 1 before 1000 ms and
2 from then on. -/
def arrivalsAt0And1 (t : Nat) : Nat :=
  if t < 1000 then 1 else 2

/-! ## Login check (`crawler.py`, `_is_logged_in`)

The cookie query either yields the list of cookie names present in the
context, or raises; `Except.error` models the raising case (caught inside
the function, which then returns `False`). -/

def isLoggedIn (cookieQuery : Except Unit (List String)) : Bool :=
  match cookieQuery with
  | Except.error _ => false
  | Except.ok names =>
    names.contains ("user_token") && names.contains ("user_token_expire_at")

/-! ## Session establishment (`crawler.py`, `_verify_login_and_cleanup`
and `__aenter__`)

The profile directory is modelled by the set of auth-cookie names it
stores; browser/filesystem nondeterminism is an explicit oracle. -/

/-- A persistent profile directory, reduced to the cookie names its
storage holds. -/
structure Profile where
  cookies : List String
deriving DecidableEq, Repr

/-- Oracle for the effectful steps of `__aenter__`:
* `verifyError`: an exception inside `_verify_login_and_cleanup` before
  the cookie check (launch/goto failure);
* `verifyCheckError`: `_is_logged_in` hits an internal error during the
  verification pass (it then returns `False`);
* `deleteFails`: `shutil.rmtree` of the profile directory raises, leaving
  the directory in place (the except-branch retry fails the same way);
* `setupRaises`: `_run_first_time_setup` raises;
* `setupCookies`: cookie names stored by the profile the first-time-setup
  browser session leaves behind (empty if the user never logged in);
* `launchError`: launching the real persistent context raises;
* `finalCheckError`: `_is_logged_in` hits an internal error during the
  final verification after launch. -/
structure SessionEnv where
  verifyError : Bool
  verifyCheckError : Bool
  deleteFails : Bool
  setupRaises : Bool
  setupCookies : List String
  launchError : Bool
  finalCheckError : Bool
deriving DecidableEq, Repr

/-- `_verify_login_and_cleanup`: absent profile is left absent; otherwise
the login cookies are checked and an invalid (or error-producing) profile
is deleted, deletion failures leaving it in place. -/
def verifyLoginAndCleanup (env : SessionEnv) (prof : Option Profile) :
    Option Profile :=
  match prof with
  | none => none
  | some p =>
    if env.verifyError then
      if env.deleteFails then some p else none
    else if isLoggedIn (if env.verifyCheckError then Except.error ()
                        else Except.ok p.cookies) then
      some p
    else
      if env.deleteFails then some p else none

/-- Result of `__aenter__`: whether a ready page was returned to the
caller, and whether `_run_first_time_setup` was invoked on the way.
`returnedPage = false` means the call raised instead. -/
structure AenterResult where
  returnedPage : Bool
  setupInvoked : Bool
deriving DecidableEq, Repr

/-- Steps 2-3 of `__aenter__`: launch the real persistent context on the
(now existing) profile and perform the final `_is_logged_in` gate; on a
failed gate the context is closed, the profile deleted and an exception
raised. -/
def launchPhase (env : SessionEnv) (p : Profile) (setupInvoked : Bool) :
    AenterResult :=
  if env.launchError then ⟨false, setupInvoked⟩
  else if isLoggedIn (if env.finalCheckError then Except.error ()
                      else Except.ok p.cookies) then
    ⟨true, setupInvoked⟩
  else ⟨false, setupInvoked⟩

/-- `__aenter__`: verify/cleanup an existing profile, run first-time
setup when the profile directory is absent (a setup failure deletes any
partial profile and re-raises), then launch and final-check. -/
def aenter (env : SessionEnv) (init : Option Profile) : AenterResult :=
  match verifyLoginAndCleanup env init with
  | none =>
    if env.setupRaises then ⟨false, true⟩
    else launchPhase env ⟨env.setupCookies⟩ true
  | some p => launchPhase env p false

/-! ## Generation macro (`crawler.py`, `image_gen_macro`)

The macro never re-raises: its `except` branch returns `None` and every
other path returns the `saved_files` list.  Oracle fields:
* `toastFirst`: the empty-prompt warning toast appears after the first
  submission;
* `toastCloseFails`: dismissing that toast raises (timeout waiting for it
  to hide, etc.), which aborts the retry sequence via the shared
  `except` handler;
* `toastSecond`: the toast appears again after the resubmission — the
  code waits for it but takes no action either way, so the field is
  deliberately unused below;
* `responses`: the matching-order sequence of network response URLs seen
  while the listener is registered;
* `innerError`: an exception in the body before submission (the `except`
  branch then returns `None`);
* `fallbackSucceeds`: the element-screenshot fallback succeeds. -/
structure GenEnv where
  toastFirst : Bool
  toastCloseFails : Bool
  toastSecond : Bool
  responses : List String
  innerError : Bool
  fallbackSucceeds : Bool
deriving DecidableEq, Repr

/-- Observable outcome of one `image_gen_macro` call: `result = none`
models the `return None` of the `except` branch, `result = some files`
the normal return; `resubmissions` counts prompt re-fill + re-click
sequences after the first submission; `reachedCollection` records whether
the response wait loop was entered. -/
structure MacroRun where
  result : Option (List String)
  resubmissions : Nat
  reachedCollection : Bool
deriving DecidableEq, Repr

/-- Name used for the synthetic fallback artifact (the source derives it
from the current time; the name itself is irrelevant here). -/
def fallbackArtifact : String := "pixai_fallback.png"

/-- `image_gen_macro`: submit, retry once on the empty-prompt toast (the
second toast wait has no effect on control flow), collect deduplicated
responses under the wait loop, fall back to an element screenshot when
nothing was saved, and return the file list; exceptions are caught and
turn into `None`. -/
def imageGenMacro (env : GenEnv) : MacroRun :=
  if env.innerError then ⟨none, 0, false⟩
  else
    let resub := if env.toastFirst && !env.toastCloseFails then 1 else 0
    let saved := (runCollector env.responses).saved_files
    let final :=
      if saved.isEmpty then
        if env.fallbackSucceeds then [fallbackArtifact] else []
      else saved
    ⟨some final, resub, true⟩

/-! ## Active configuration scraping (`crawler.py`, `get_active_config`)

The two `page.evaluate` calls are the oracles: each either raises
(`Except.error`, caught by the surrounding `except`, which returns the
sentinel config) or yields its JS value — `null` or a
`{model_name, model_version}` object for the first, a list of
`{name, weight}` records for the second. -/

structure ModelInfo where
  model_name : String
  model_version : String
deriving DecidableEq, Repr

structure LoraEntry where
  name : String
  weight : ℚ
deriving DecidableEq, Repr

structure ActiveConfig where
  model_name : String
  model_version : String
  loras : List LoraEntry
deriving DecidableEq, Repr

/-- Sentinel returned by the `except` branch of `get_active_config`. -/
def errorConfig : ActiveConfig :=
  ⟨"error_reading_model", "error_reading_version", []⟩

/-- `get_active_config`: scrape model info and LoRA list, cap the LoRA
list at 15 on the Python side, substitute the `unknown` pair when the
model header was not found, and catch every scraping error into the
sentinel config. -/
def getActiveConfig (modelEval : Except Unit (Option ModelInfo))
    (lorasEval : Except Unit (List LoraEntry)) : ActiveConfig :=
  match modelEval, lorasEval with
  | Except.error _, _ => errorConfig
  | _, Except.error _ => errorConfig
  | Except.ok mi, Except.ok ls =>
    let ls := ls.take 15
    match mi with
    | none => ⟨"unknown_model", "unknown_version", ls⟩
    | some m => ⟨m.model_name, m.model_version, ls⟩

/-! ## LoRA string parsing (`gui.py`, `_parse_lora_string`)

`float(weight_str)` succeeds exactly on Python float literals: optional
surrounding whitespace, optional sign, then `inf`/`infinity`/`nan`
(case-insensitive) or a decimal mantissa with optional exponent, with
single underscores allowed between digits.  (Non-ASCII digits and exotic
unicode whitespace are not modelled.) -/

/-- Python `str.strip()` on the character list: drop leading and
trailing whitespace. -/
def trimChars (cs : List Char) : List Char :=
  ((cs.dropWhile Char.isWhitespace).reverse.dropWhile Char.isWhitespace).reverse

/-- Python `str.strip()`. -/
def pyStrip (s : String) : String := String.mk (trimChars s.data)

/-- Python `str.split(',')`: split at every comma, keeping empty
pieces. -/
def splitOnComma : List Char → List (List Char)
  | [] => [[]]
  | c :: cs =>
    if c = ',' then [] :: splitOnComma cs
    else
      match splitOnComma cs with
      | [] => [[c]]
      | g :: gs => (c :: g) :: gs

/-- Split a character list at the first occurrence of `c`, returning the
parts before and after it. -/
def splitAtFirst (c : Char) : List Char → Option (List Char × List Char)
  | [] => none
  | x :: xs =>
    if x = c then some ([], xs)
    else (splitAtFirst c xs).map (fun p => (x :: p.1, p.2))

/-- Continuation of a digit group: digits, with single underscores only
between digits. -/
def digitTail : List Char → Bool
  | [] => true
  | c :: rest =>
    if c = '_' then
      match rest with
      | d :: rest2 => d.isDigit && digitTail rest2
      | [] => false
    else c.isDigit && digitTail rest

/-- A `digitpart` of the Python float grammar: nonempty, starts with a
digit, single underscores only between digits. -/
def isDigitPart : List Char → Bool
  | [] => false
  | c :: rest => c.isDigit && digitTail rest

/-- Exponent body after the `e`: optional sign then a digit part. -/
def isExpPart (cs : List Char) : Bool :=
  match cs with
  | '+' :: r => isDigitPart r
  | '-' :: r => isDigitPart r
  | r => isDigitPart r

/-- Mantissa: digits, optionally with one decimal point, at least one
digit overall. -/
def isMantissa (cs : List Char) : Bool :=
  match splitAtFirst ('.') cs with
  | none => isDigitPart cs
  | some (a, b) =>
    if b.contains ('.') then false
    else
      match a, b with
      | [], [] => false
      | [], b => isDigitPart b
      | a, [] => isDigitPart a
      | a, b => isDigitPart a && isDigitPart b

/-- Whether Python `float(s)` succeeds on `s`. -/
def pyFloatParses (s : String) : Bool :=
  let cs := (trimChars s.data).map Char.toLower
  let cs :=
    match cs with
    | '+' :: r => r
    | '-' :: r => r
    | r => r
  if cs = "inf".data || cs = "infinity".data || cs = "nan".data then true
  else
    match splitAtFirst ('e') cs with
    | none => isMantissa cs
    | some (m, e) => isMantissa m && isExpPart e

/-- Python `part.rpartition(':')` restricted to the information the
source uses: `some (before, after)` splitting at the last colon, `none`
when no colon occurs (`':' in part` is false). -/
def rpartitionColon : List Char → Option (List Char × List Char)
  | [] => none
  | c :: cs =>
    match rpartitionColon cs with
    | some (l, r) => some (c :: l, r)
    | none => if c = ':' then some ([], cs) else none

/-- Loop body of `_parse_lora_string` for one comma-separated part
(already stripped, nonempty): a parsable weight after the last colon
yields `(name.strip(), weight.strip())`; an unparsable weight or a part
without a colon yields the whole part with no weight. -/
def parsePart (part : String) : String × Option String :=
  match rpartitionColon part.data with
  | some (l, r) =>
    let weight := String.mk r
    if pyFloatParses weight then (pyStrip (String.mk l), some (pyStrip weight))
    else (part, none)
  | none => (part, none)

/-- The `lora_parts` list: split on commas, strip, drop empties. -/
def splitCommaParts (s : String) : List String :=
  ((splitOnComma s.data).map (fun cs => String.mk (trimChars cs))).filter
    (fun p => p ≠ "")

/-- `_parse_lora_string` in full. -/
def parseLoraString (s : String) : List (String × Option String) :=
  if s = "" then [] else (splitCommaParts s).map parsePart

/-! ## Model/LoRA reconciliation decision (`gui.py`,
`execute_generation_task` lines 744-765)

Only the decision which remote flows to run is modelled; the flows
themselves live in the crawler. -/

inductive ReconcileAction where
  | setModel
  | setLoras
deriving DecidableEq, Repr

/-- Python `sorted` on a list of strings (ascending lexicographic by code
point), as insertion sort. -/
def insertSorted (x : String) : List String → List String
  | [] => [x]
  | y :: ys => if x ≤ y then x :: y :: ys else y :: insertSorted x ys

def sortNames (l : List String) : List String :=
  l.foldr insertSorted []

/-- The reconciliation decision: a differing `(model_name,
model_version)` pair triggers the model-change flow followed
unconditionally by re-applying the LoRA set; otherwise a differing
sorted LoRA-name list triggers only the LoRA flow; otherwise nothing
runs. -/
def reconcileActions (active : ActiveConfig) (targetName targetVersion : String)
    (targetLoraNames : List String) : List ReconcileAction :=
  let modelMatch :=
    active.model_name == targetName && active.model_version == targetVersion
  let loraNamesMatch :=
    sortNames targetLoraNames == sortNames (active.loras.map (·.name))
  if !modelMatch then [ReconcileAction.setModel, ReconcileAction.setLoras]
  else if !loraNamesMatch then [ReconcileAction.setLoras]
  else []

/-! ## Fuzzy similarity (`difflib.SequenceMatcher(None, a, b).ratio()`)

`set_loras` scores search results with
`difflib.SequenceMatcher(None, lora_name.lower(), title.lower()).ratio()`.
With no junk predicate (and titles far below the 200-character autojunk
threshold) this is the Ratcliff/Obershelp ratio: find the longest
matching block — among maximal blocks the one starting earliest in `a`,
then earliest in `b` — recurse on the pieces to its left and right, and
return `2 * M / (len a + len b)` where `M` is the total matched length
(`1` when both strings are empty).  The Python comparison
`ratio > 0.6` is modelled as the rational comparison with `3 / 5`: for
the short strings involved, a ratio `2M/T` with small denominator is
never strictly between the binary64 value of the literal `0.6` and
`3/5`, so the two comparisons agree. -/

/-- Length of the longest common prefix of two character lists (and so
the length of the matching block starting at a given pair of offsets). -/
def matchLen : List Char → List Char → Nat
  | a :: as, b :: bs => if a = b then matchLen as bs + 1 else 0
  | _, _ => 0

/-- One candidate step of `find_longest_match`: replace the current best
`(i, j, k)` only when the block at `(i, j)` is strictly longer, so the
scan in ascending `(i, j)` keeps the earliest maximal block. -/
def bestStep (a b : List Char) (best : Nat × Nat × Nat) (i j : Nat) :
    Nat × Nat × Nat :=
  let k := matchLen (a.drop i) (b.drop j)
  if best.2.2 < k then (i, j, k) else best

/-- `SequenceMatcher.find_longest_match` over the whole strings, with no
junk: the longest matching block, ties resolved to the earliest start in
`a`, then in `b`; `(0, 0, 0)` when the strings share no character. -/
def findLongestMatch (a b : List Char) : Nat × Nat × Nat :=
  (List.range (a.length + 1)).foldl
    (fun best i =>
      (List.range (b.length + 1)).foldl (fun best j => bestStep a b best i j) best)
    (0, 0, 0)

lemma matchLen_le_left : ∀ a b : List Char, matchLen a b ≤ a.length := by
  intro a
  induction a with
  | nil => intro b; cases b <;> simp [matchLen]
  | cons x xs ih =>
    intro b
    cases b with
    | nil => simp [matchLen]
    | cons y ys =>
      by_cases h : x = y <;> simp [matchLen, h]
      exact ih ys

lemma foldl_preserve {α β : Type} (P : β → Prop) (f : β → α → β)
    (hf : ∀ b a, P b → P (f b a)) :
    ∀ (l : List α) (b : β), P b → P (l.foldl f b) := by
  intro l
  induction l with
  | nil => intro b hb; simpa using hb
  | cons x xs ih => intro b hb; simpa using ih (f b x) (hf b x hb)

/-- The block reported by `findLongestMatch` really is a matching block:
its size is bounded by the match length at its offsets. -/
lemma findLongestMatch_le (a b : List Char) :
    (findLongestMatch a b).2.2 ≤
      matchLen (a.drop (findLongestMatch a b).1)
        (b.drop (findLongestMatch a b).2.1) := by
  unfold findLongestMatch
  apply foldl_preserve
    (P := fun t : Nat × Nat × Nat => t.2.2 ≤ matchLen (a.drop t.1) (b.drop t.2.1))
  · intro best i hb
    apply foldl_preserve
      (P := fun t : Nat × Nat × Nat => t.2.2 ≤ matchLen (a.drop t.1) (b.drop t.2.1))
    · intro best j hb2
      unfold bestStep
      dsimp only
      split
      · exact le_refl _
      · exact hb2
    · exact hb
  · simp only [List.drop_zero]
    exact Nat.zero_le (matchLen a b)

/-- Total matched length of the Ratcliff/Obershelp decomposition
(`sum of block sizes over get_matching_blocks`), with explicit fuel so
the definition reduces inside the kernel.  Each recursive call strictly
shrinks the first list (the reported block is nonempty and lies inside
it), so any fuel above `a.length` is never exhausted —
`rMatchesAux_congr` below makes that precise. -/
def rMatchesAux : Nat → List Char → List Char → Nat
  | 0, _, _ => 0
  | fuel + 1, a, b =>
    if (findLongestMatch a b).2.2 = 0 then 0
    else
      rMatchesAux fuel (a.take (findLongestMatch a b).1)
          (b.take (findLongestMatch a b).2.1) +
        (findLongestMatch a b).2.2 +
        rMatchesAux fuel (a.drop ((findLongestMatch a b).1 + (findLongestMatch a b).2.2))
          (b.drop ((findLongestMatch a b).2.1 + (findLongestMatch a b).2.2))

/-- The fuel does not matter once it exceeds the length of the first
list: the recursion always terminates before exhausting it. -/
lemma rMatchesAux_congr :
    ∀ (n m : Nat) (a b : List Char), a.length < n → a.length < m →
      rMatchesAux n a b = rMatchesAux m a b := by
  intro n
  induction n with
  | zero => intro m a b hn _; exact absurd hn (Nat.not_lt_zero _)
  | succ n ih =>
    intro m a b hn hm
    cases m with
    | zero => exact absurd hm (Nat.not_lt_zero _)
    | succ m =>
      simp only [rMatchesAux]
      by_cases hk : (findLongestMatch a b).2.2 = 0
      · simp [hk]
      · have hinv := findLongestMatch_le a b
        have hlen := matchLen_le_left (a.drop (findLongestMatch a b).1)
          (b.drop (findLongestMatch a b).2.1)
        simp only [List.length_drop] at hlen
        have e1 := ih m (a.take (findLongestMatch a b).1)
          (b.take (findLongestMatch a b).2.1)
          (by simp only [List.length_take]; omega)
          (by simp only [List.length_take]; omega)
        have e2 := ih m
          (a.drop ((findLongestMatch a b).1 + (findLongestMatch a b).2.2))
          (b.drop ((findLongestMatch a b).2.1 + (findLongestMatch a b).2.2))
          (by simp only [List.length_drop]; omega)
          (by simp only [List.length_drop]; omega)
        rw [if_neg hk, if_neg hk, e1, e2]

/-- Total matched length `M` of `SequenceMatcher.get_matching_blocks`. -/
def rMatches (a b : List Char) : Nat :=
  rMatchesAux (a.length + 1) a b

/-- `SequenceMatcher.ratio()`. -/
def ratio (a b : List Char) : ℚ :=
  if a.length + b.length = 0 then 1
  else (2 * rMatches a b : ℚ) / (a.length + b.length)

/-- Python `str.lower()` (ASCII-faithful). -/
def lowerStr (s : String) : String := String.mk (s.data.map Char.toLower)

/-- The similarity score `set_loras` computes for a search-result title
against the desired LoRA name. -/
def similarity (name title : String) : ℚ :=
  ratio (lowerStr name).data (lowerStr title).data

/-! ## LoRA search-result selection (`crawler.py`, `set_loras`
lines 1029-1082)

The scan over result titles: empty titles are skipped; the loop breaks
at the first exact case-insensitive match; otherwise it tracks the first
index attaining the strictly-highest similarity (the source initialises
`highest_similarity = -1.0`, so the first scored title always becomes
the initial best, which the `Option` accumulator reproduces). -/

/-- The `if similarity > highest_similarity` update of the loop; the
`-1.0` initialisation is represented by `none` (a first score always
wins, every score being nonnegative while `-1.0` is not). -/
def updateBest (i : Nat) (s : ℚ) : Option (Nat × ℚ) → Option (Nat × ℚ)
  | none => some (i, s)
  | some (bi, bs) => if bs < s then some (i, s) else some (bi, bs)

def scanFrom (name : String) :
    List String → Nat → Option (Nat × ℚ) → Option Nat × Option (Nat × ℚ)
  | [], _, best => (none, best)
  | t :: ts, i, best =>
    if t = "" then scanFrom name ts (i + 1) best
    else if lowerStr t = lowerStr name then (some i, best)
    else scanFrom name ts (i + 1) (updateBest i (similarity name t) best)

/-- Index of the search result `set_loras` clicks: the first exact
case-insensitive title match if any; else the best fuzzy match when its
score exceeds 0.6; else the first result (index 0, with a warning). -/
def selectLora (name : String) (titles : List String) : Nat :=
  match scanFrom name titles 0 none with
  | (some e, _) => e
  | (none, some (bi, bs)) => if (3 : ℚ) / 5 < bs then bi else 0
  | (none, none) => 0

/-! ## Helper lemmas -/

/-- Saved-file count after folding the handler over a response sequence:
the initial count plus the number of matching URLs not already seen. -/
lemma collect_invariant (urls : List String) :
    ∀ st : CollectState, (∀ u ∈ urls, imgMatch u = true) →
      (urls.foldl handleResponse st).saved_files.length =
        st.saved_files.length + (urls.toFinset \ st.saved_urls.toFinset).card := by
  induction urls with
  | nil => intro st _; simp
  | cons u rest ih =>
    intro st h
    have hu : imgMatch u = true := h u (by simp)
    have hrest : ∀ v ∈ rest, imgMatch v = true := fun v hv => h v (by simp [hv])
    simp only [List.foldl_cons]
    by_cases hmem : u ∈ st.saved_urls
    · have hstep : handleResponse st u = st := by
        simp [handleResponse, hmem]
      rw [hstep, ih st hrest]
      have hmem2 : u ∈ st.saved_urls.toFinset := by simpa using hmem
      rw [List.toFinset_cons, Finset.insert_sdiff_of_mem _ hmem2]
    · have hstep : handleResponse st u =
          ⟨u :: st.saved_urls, st.saved_files ++ [u]⟩ := by
        simp [handleResponse, hmem, hu]
      rw [hstep, ih _ hrest]
      simp only [List.toFinset_cons]
      have hmem2 : u ∉ st.saved_urls.toFinset := by simpa using hmem
      rw [Finset.sdiff_insert, Finset.insert_sdiff_of_not_mem _ hmem2]
      by_cases hx : u ∈ rest.toFinset \ st.saved_urls.toFinset
      · rw [Finset.card_insert_of_mem hx, Finset.card_erase_of_mem hx]
        have : 0 < (rest.toFinset \ st.saved_urls.toFinset).card :=
          Finset.card_pos.mpr ⟨u, hx⟩
        simp
        omega
      · rw [Finset.card_insert_of_not_mem hx, Finset.erase_eq_of_not_mem hx]
        simp
        omega

/-! ## Claim theorems -/

/-- C1 counterexample: with no matching network response, a failing
fallback screenshot and no internal exception, `image_gen_macro` returns
the empty list through its normal return path — it does not raise (no
`GenerationError` type exists anywhere in the source; the `except`
branch returns `None`). -/
theorem claim_c1_counterexample :
    imageGenMacro ⟨false, false, false, [], false, false⟩ =
      { result := some [], resubmissions := 0, reachedCollection := true } := by
  decide

/-- C1 (amended): `image_gen_macro` never raises: an internal exception
is caught and turned into a `None` return, every other run returns a
list of saved artifact paths, and in particular when no network artifact
was saved and the fallback screenshot also fails, the call returns the
empty list rather than raising. -/
theorem claim_c1_amended (env : GenEnv) :
    (env.innerError = true → (imageGenMacro env).result = none) ∧
    (env.innerError = false → ∃ fs, (imageGenMacro env).result = some fs) ∧
    (env.innerError = false → (runCollector env.responses).saved_files = [] →
      env.fallbackSucceeds = false → (imageGenMacro env).result = some []) := by
  refine ⟨fun h => by simp [imageGenMacro, h], fun h => ?_, fun h h2 h3 => ?_⟩
  · simp only [imageGenMacro, h]
    exact ⟨_, rfl⟩
  · simp [imageGenMacro, h, h2, h3]

/-- C1 witness: a run whose only response does not match `IMG_PATTERN`,
with the fallback failing, returns `some []`. -/
theorem claim_c1_witness :
    ((⟨false, false, false, ["https://pixai.art/other.png"], false, false⟩ :
        GenEnv).innerError = false) ∧
    (runCollector ["https://pixai.art/other.png"]).saved_files = [] ∧
    (imageGenMacro ⟨false, false, false, ["https://pixai.art/other.png"],
        false, false⟩).result = some [] :=
  ⟨rfl, by decide,
    (claim_c1_amended _).2.2 rfl (by decide) rfl⟩

/-- C2 counterexample: the empty-prompt toast appears after the first
submission and again after the single resubmission, yet the call does
not fail: it proceeds to normal artifact collection and returns the
artifact that arrived. -/
theorem claim_c2_counterexample :
    imageGenMacro ⟨true, false, true,
        ["https://images-ng.pixai.art/gi/orig/cat.png"], false, false⟩ =
      { result := some ["https://images-ng.pixai.art/gi/orig/cat.png"],
        resubmissions := 1, reachedCollection := true } := by
  decide

/-- C2 (amended): when the toast appears and is successfully dismissed,
the prompt is re-filled and resubmitted exactly once (zero resubmissions
when it never appears); a second occurrence of the toast is waited for
but has no effect — the call proceeds to normal artifact collection
either way, instead of failing. -/
theorem claim_c2_amended (env : GenEnv) (h : env.innerError = false) :
    (env.toastFirst = true → env.toastCloseFails = false →
      (imageGenMacro env).resubmissions = 1) ∧
    (env.toastFirst = false → (imageGenMacro env).resubmissions = 0) ∧
    (imageGenMacro env).reachedCollection = true ∧
    (∀ b, imageGenMacro { env with toastSecond := b } = imageGenMacro env) := by
  refine ⟨fun h1 h2 => by simp [imageGenMacro, h, h1, h2],
    fun h1 => by simp [imageGenMacro, h, h1], by simp [imageGenMacro, h],
    fun b => rfl⟩

/-- C2 witness: toast once, dismissed, not reappearing — exactly one
resubmission and collection reached. -/
theorem claim_c2_witness :
    ((⟨true, false, false, [], false, true⟩ : GenEnv).innerError = false) ∧
    (imageGenMacro ⟨true, false, false, [], false, true⟩).resubmissions = 1 ∧
    (imageGenMacro ⟨true, false, false, [], false, true⟩).reachedCollection = true :=
  ⟨rfl, (claim_c2_amended _ rfl).1 rfl rfl, (claim_c2_amended _ rfl).2.2.1⟩

/-- C3 counterexample: a context holding `user_token` but not
`user_token_expire_at` has at least one of the two cookies present and
no error occurs, yet `_is_logged_in` classifies it as not logged in. -/
theorem claim_c3_counterexample :
    (["user_token"] : List String).contains ("user_token") = true ∧
    isLoggedIn (Except.ok ["user_token"]) = false := by
  decide

/-- C3 (amended): `_is_logged_in` classifies the profile as logged in
exactly when no error occurs and BOTH cookies `user_token` and
`user_token_expire_at` are present; it is invalid as soon as either one
is absent, or on any error. -/
theorem claim_c3_amended (r : Except Unit (List String)) :
    isLoggedIn r = true ↔
      ∃ names, r = Except.ok names ∧ names.contains ("user_token") = true ∧
        names.contains ("user_token_expire_at") = true := by
  cases r with
  | error e => simp [isLoggedIn]
  | ok names => simp [isLoggedIn]

/-- C3 witness: both cookies present, no error — logged in. -/
theorem claim_c3_witness :
    isLoggedIn (Except.ok ["user_token", "user_token_expire_at"]) = true :=
  (claim_c3_amended _).mpr ⟨["user_token", "user_token_expire_at"], rfl,
    by decide, by decide⟩

/-- C6: with matching responses arriving at t = 0 s and t = 1 s and none
afterwards, the wait loop exits at 4500 ms — the 1 s last arrival (seen
at the 1000 ms poll) plus the 3 s idle threshold, rounded up to the next
0.5 s poll — which is approximately 4 s and far below the 10-minute
ceiling. -/
theorem claim_c6_idle_exit :
    waitLoopExit arrivalsAt0And1 = 4500 ∧
    4000 ≤ waitLoopExit arrivalsAt0And1 ∧
    waitLoopExit arrivalsAt0And1 ≤ 5000 ∧
    waitLoopExit arrivalsAt0And1 < TOTAL_TIMEOUT := by
  decide

/-- C5: over any sequence of N matching responses in which duplicate
URLs account for M of them, exactly N − M artifacts are saved (one per
distinct URL), and a response whose URL was already seen changes
nothing. -/
theorem claim_c5_dedup (urls : List String)
    (h : ∀ u ∈ urls, imgMatch u = true) :
    (runCollector urls).saved_files.length = urls.toFinset.card ∧
    (runCollector urls).saved_files.length =
      urls.length - (urls.length - urls.toFinset.card) ∧
    ∀ (st : CollectState) (u : String), st.saved_urls.contains u = true →
      handleResponse st u = st := by
  have hinv := collect_invariant urls ⟨[], []⟩ h
  have hbase : (runCollector urls).saved_files.length = urls.toFinset.card := by
    simpa [runCollector] using hinv
  refine ⟨hbase, ?_, ?_⟩
  · have hle : urls.toFinset.card ≤ urls.length := urls.toFinset_card_le
    omega
  · intro st u hc
    have hmem : u ∈ st.saved_urls := by simpa using hc
    simp [handleResponse, hmem]

/-- C5 witness: three matching responses with one duplicate URL save
exactly two artifacts. -/
theorem claim_c5_witness :
    (∀ u ∈ ["https://images-ng.pixai.art/gi/orig/a.png",
            "https://images-ng.pixai.art/gi/orig/b.png",
            "https://images-ng.pixai.art/gi/orig/a.png"], imgMatch u = true) ∧
    (runCollector ["https://images-ng.pixai.art/gi/orig/a.png",
            "https://images-ng.pixai.art/gi/orig/b.png",
            "https://images-ng.pixai.art/gi/orig/a.png"]).saved_files.length =
      (["https://images-ng.pixai.art/gi/orig/a.png",
            "https://images-ng.pixai.art/gi/orig/b.png",
            "https://images-ng.pixai.art/gi/orig/a.png"] : List String).toFinset.card :=
  ⟨by decide, (claim_c5_dedup _ (by decide)).1⟩

/-- C8: whenever the active `(model_name, model_version)` pair differs
from the target pair, the reconciliation decision runs the model-change
flow followed unconditionally by re-applying the full desired LoRA set —
for every desired LoRA name list, including one whose sorted names equal
the active ones. -/
theorem claim_c8_model_change (active : ActiveConfig)
    (tname tver : String) (tloras : List String)
    (h : active.model_name ≠ tname ∨ active.model_version ≠ tver) :
    reconcileActions active tname tver tloras =
      [ReconcileAction.setModel, ReconcileAction.setLoras] := by
  unfold reconcileActions
  have hm : (active.model_name == tname && active.model_version == tver) = false := by
    rcases h with h | h
    · simp [beq_eq_false_iff_ne, h]
    · simp [beq_eq_false_iff_ne, h]
  simp [hm]

/-- C8 witness: the version differs while the desired LoRA name set
equals the active one — both flows still run. -/
theorem claim_c8_witness :
    ((⟨"model A", "v1", [⟨"lora x", 7/10⟩]⟩ : ActiveConfig).model_name ≠ "model B" ∨
      (⟨"model A", "v1", [⟨"lora x", 7/10⟩]⟩ : ActiveConfig).model_version ≠ "v1") ∧
    sortNames ["lora x"] =
      sortNames ((⟨"model A", "v1", [⟨"lora x", 7/10⟩]⟩ : ActiveConfig).loras.map (·.name)) ∧
    reconcileActions ⟨"model A", "v1", [⟨"lora x", 7/10⟩]⟩ "model B" "v1" ["lora x"] =
      [ReconcileAction.setModel, ReconcileAction.setLoras] :=
  ⟨Or.inl (by decide), by decide,
    claim_c8_model_change _ _ _ _ (Or.inl (by decide))⟩

/-- C9 counterexample: in the entry `myLora:abc` the weight portion is
not parsable, and the parsed LoRA keeps the WHOLE entry text
`myLora:abc` as its name — not the pre-colon portion `myLora` the claim
describes. -/
theorem claim_c9_counterexample :
    parseLoraString ("myLora:abc") = [("myLora:abc", none)] ∧
    ("myLora:abc" : String) ≠ "myLora" := by
  constructor
  · rfl
  · decide

/-- C9 (amended): for every entry of the form `name:weight` whose weight
portion is not parsable as a Python float, `_parse_lora_string` produces
a LoRA whose name is the ENTIRE entry text (the branch falls back to
treating the whole part as a name) and whose weight is absent, deferring
to the remote UI's default. -/
theorem claim_c9_amended (s part : String) (l r : List Char)
    (hpart : part ∈ splitCommaParts s)
    (hcolon : rpartitionColon part.data = some (l, r))
    (hbad : pyFloatParses (String.mk r) = false) :
    parsePart part = (part, none) ∧ (part, none) ∈ parseLoraString s := by
  have h1 : parsePart part = (part, none) := by
    simp [parsePart, hcolon, hbad]
  refine ⟨h1, ?_⟩
  by_cases hs : s = ""
  · subst hs
    rw [show splitCommaParts ("") = [] from rfl] at hpart
    exact absurd hpart (List.not_mem_nil _)
  · simp only [parseLoraString, hs, if_neg hs]
    exact h1 ▸ List.mem_map_of_mem parsePart hpart

/-- C9 witness: the entry `x:zz` inside a two-entry string parses to the
whole text with no weight. -/
theorem claim_c9_witness :
    (("x:zz" : String) ∈ splitCommaParts ("lora a:0.8, x:zz")) ∧
    rpartitionColon ("x:zz" : String).data = some ("x".data, "zz".data) ∧
    pyFloatParses (String.mk ("zz".data)) = false ∧
    parsePart ("x:zz") = ("x:zz", none) ∧
    ("x:zz", (none : Option String)) ∈ parseLoraString ("lora a:0.8, x:zz") := by
  refine ⟨by decide, by decide, by decide, ?_, ?_⟩
  · exact (claim_c9_amended ("lora a:0.8, x:zz") ("x:zz") ("x".data) ("zz".data)
      (by decide) (by decide) (by decide)).1
  · exact (claim_c9_amended ("lora a:0.8, x:zz") ("x:zz") ("x".data) ("zz".data)
      (by decide) (by decide) (by decide)).2

/-- C10: `get_active_config` is total — every scraping error yields the
sentinel config, a missing model header yields the `unknown` pair, and
the returned LoRA list never exceeds 15 entries; no input makes it
raise. -/
theorem claim_c10_total (mi : Except Unit (Option ModelInfo))
    (li : Except Unit (List LoraEntry)) :
    ((mi = Except.error () ∨ li = Except.error ()) →
      getActiveConfig mi li = errorConfig) ∧
    (getActiveConfig mi li).loras.length ≤ 15 := by
  constructor
  · intro h
    rcases h with h | h
    · subst h; cases li <;> rfl
    · subst h; cases mi <;> rfl
  · cases mi with
    | error e => simp [getActiveConfig, errorConfig]
    | ok mo =>
      cases li with
      | error e => simp [getActiveConfig, errorConfig]
      | ok ls =>
        cases mo <;>
        · simp only [getActiveConfig]
          exact List.length_take_le 15 ls

/-- C10 witness: a failing model scrape yields the sentinel config. -/
theorem claim_c10_witness :
    ((Except.error () : Except Unit (Option ModelInfo)) = Except.error () ∨
      (Except.ok [] : Except Unit (List LoraEntry)) = Except.error ()) ∧
    getActiveConfig (Except.error ()) (Except.ok []) = errorConfig :=
  ⟨Or.inl rfl, (claim_c10_total _ _).1 (Or.inl rfl)⟩

/-- C4: for every profile directory present at start but lacking the two
required auth cookies, `__aenter__` either raises (no page is returned)
or invokes the first-time setup flow before returning a page: the
invalid profile cannot flow through to a ready page, because a surviving
profile fails the final login gate. -/
theorem claim_c4_setup_before_page (env : SessionEnv) (p : Profile)
    (h : isLoggedIn (Except.ok p.cookies) = false) :
    (aenter env (some p)).returnedPage = false ∨
      (aenter env (some p)).setupInvoked = true := by
  have hv : verifyLoginAndCleanup env (some p) = none ∨
      verifyLoginAndCleanup env (some p) = some p := by
    unfold verifyLoginAndCleanup
    split_ifs <;> simp
  unfold aenter
  rcases hv with hv | hv <;> rw [hv]
  · right
    by_cases hs : env.setupRaises
    · simp [hs]
    · simp only [hs, if_neg (by simp : ¬(false = true))]
      unfold launchPhase
      split_ifs <;> rfl
  · left
    unfold launchPhase
    by_cases hl : env.launchError
    · simp [hl]
    · by_cases hf : env.finalCheckError
      · simp [hl, hf, isLoggedIn]
      · simp [hl, hf, h]

/-- C4 witness: an empty-cookie profile with a clean environment gets
deleted, setup runs, and the conclusion holds. -/
theorem claim_c4_witness :
    isLoggedIn (Except.ok (Profile.mk []).cookies) = false ∧
      ((aenter ⟨false, false, false, false,
          ["user_token", "user_token_expire_at"], false, false⟩
          (some ⟨[]⟩)).returnedPage = false ∨
        (aenter ⟨false, false, false, false,
          ["user_token", "user_token_expire_at"], false, false⟩
          (some ⟨[]⟩)).setupInvoked = true) :=
  ⟨by decide, claim_c4_setup_before_page _ _ (by decide)⟩

/-- `updateBest` always yields a score at least as large as the new
score and the previous best, and its payload is either the new entry or
the previous best. -/
lemma updateBest_spec (i : Nat) (s : ℚ) (best : Option (Nat × ℚ)) :
    ∃ q : Nat × ℚ, updateBest i s best = some q ∧ s ≤ q.2 ∧
      (q = (i, s) ∨ best = some q) ∧
      (∀ p0, best = some p0 → p0.2 ≤ q.2) := by
  cases best with
  | none =>
    exact ⟨(i, s), rfl, le_refl _, Or.inl rfl, fun p0 h => by cases h⟩
  | some p0 =>
    obtain ⟨bi, bs⟩ := p0
    by_cases hlt : bs < s
    · refine ⟨(i, s), by simp [updateBest, hlt], le_refl _, Or.inl rfl, ?_⟩
      intro q0 hq0
      obtain rfl : (bi, bs) = q0 := by injection hq0
      exact le_of_lt hlt
    · refine ⟨(bi, bs), by simp [updateBest, hlt], le_of_not_lt hlt, Or.inr rfl, ?_⟩
      intro q0 hq0
      obtain rfl : (bi, bs) = q0 := by injection hq0
      exact le_refl _

/-- When the title scan reports an exact match at absolute index `e`,
that index points into the scanned list at a nonempty title equal
(case-insensitively) to the desired name. -/
lemma scanFrom_exact_sound (name : String) :
    ∀ (ts : List String) (i : Nat) (best : Option (Nat × ℚ)) (e : Nat)
      (b2 : Option (Nat × ℚ)),
      scanFrom name ts i best = (some e, b2) →
      i ≤ e ∧ e - i < ts.length ∧ ts.getD (e - i) "" ≠ "" ∧
        lowerStr (ts.getD (e - i) "") = lowerStr name := by
  intro ts
  induction ts with
  | nil =>
    intro i best e b2 hs
    simp [scanFrom] at hs
  | cons t ts ih =>
    intro i best e b2 hs
    by_cases ht : t = ""
    · rw [show scanFrom name (t :: ts) i best = scanFrom name ts (i + 1) best by
        simp only [scanFrom, if_pos ht]] at hs
      obtain ⟨h1, h2, h3, h4⟩ := ih (i + 1) best e b2 hs
      have hshift : e - i = (e - (i + 1)) + 1 := by omega
      refine ⟨by omega, by simp; omega, ?_, ?_⟩
      · rw [hshift, List.getD_cons_succ]; exact h3
      · rw [hshift, List.getD_cons_succ]; exact h4
    · by_cases hex : lowerStr t = lowerStr name
      · rw [show scanFrom name (t :: ts) i best = (some i, best) by
          simp only [scanFrom, if_neg ht, if_pos hex]] at hs
        rw [Prod.mk.injEq, Option.some.injEq] at hs
        obtain ⟨rfl, -⟩ := hs
        refine ⟨le_refl _, by simp, ?_, ?_⟩
        · simpa [List.getD_cons_zero] using ht
        · simpa [List.getD_cons_zero] using hex
      · rw [show scanFrom name (t :: ts) i best =
            scanFrom name ts (i + 1) (updateBest i (similarity name t) best) by
          simp only [scanFrom, if_neg ht, if_neg hex]] at hs
        obtain ⟨h1, h2, h3, h4⟩ := ih (i + 1) _ e b2 hs
        have hshift : e - i = (e - (i + 1)) + 1 := by omega
        refine ⟨by omega, by simp; omega, ?_, ?_⟩
        · rw [hshift, List.getD_cons_succ]; exact h3
        · rw [hshift, List.getD_cons_succ]; exact h4

/-- When some nonempty title matches the desired name exactly
(case-insensitively), the scan reports an exact match. -/
lemma scanFrom_exact_complete (name : String) :
    ∀ (ts : List String) (i : Nat) (best : Option (Nat × ℚ)),
      (∃ t ∈ ts, t ≠ "" ∧ lowerStr t = lowerStr name) →
      ∃ e b2, scanFrom name ts i best = (some e, b2) := by
  intro ts
  induction ts with
  | nil =>
    intro i best h
    obtain ⟨t, ht, -⟩ := h
    exact absurd ht (List.not_mem_nil t)
  | cons t ts ih =>
    intro i best h
    by_cases ht : t = ""
    · obtain ⟨t0, ht0mem, ht0ne, ht0eq⟩ := h
      have ht0 : t0 ∈ ts := by
        rcases List.mem_cons.mp ht0mem with rfl | hmem
        · exact absurd ht ht0ne
        · exact hmem
      obtain ⟨e, b2, hs⟩ := ih (i + 1) best ⟨t0, ht0, ht0ne, ht0eq⟩
      exact ⟨e, b2, by rw [show scanFrom name (t :: ts) i best =
        scanFrom name ts (i + 1) best by simp only [scanFrom, if_pos ht]]; exact hs⟩
    · by_cases hex : lowerStr t = lowerStr name
      · exact ⟨i, best, by simp only [scanFrom, if_neg ht, if_pos hex]⟩
      · obtain ⟨t0, ht0mem, ht0ne, ht0eq⟩ := h
        have ht0 : t0 ∈ ts := by
          rcases List.mem_cons.mp ht0mem with rfl | hmem
          · exact absurd ht0eq hex
          · exact hmem
        rw [show scanFrom name (t :: ts) i best =
            scanFrom name ts (i + 1) (updateBest i (similarity name t) best) by
          simp only [scanFrom, if_neg ht, if_neg hex]]
        exact ih (i + 1) _ ⟨t0, ht0, ht0ne, ht0eq⟩

/-- Behaviour of the scan when no nonempty title matches exactly: no
exact match is reported; the surviving best either is the incoming
accumulator or points at a scanned nonempty title whose similarity it
records; bests only improve; and the final best dominates the
similarity of every scanned nonempty title. -/
lemma scanFrom_noexact (name : String) :
    ∀ (ts : List String) (i : Nat) (best : Option (Nat × ℚ)),
      (∀ t ∈ ts, t ≠ "" → lowerStr t ≠ lowerStr name) →
      (scanFrom name ts i best).1 = none ∧
      (∀ bi bs, (scanFrom name ts i best).2 = some (bi, bs) →
        best = some (bi, bs) ∨
          (i ≤ bi ∧ bi - i < ts.length ∧ ts.getD (bi - i) "" ≠ "" ∧
            bs = similarity name (ts.getD (bi - i) ""))) ∧
      (∀ p0, best = some p0 →
        ∃ p, (scanFrom name ts i best).2 = some p ∧ p0.2 ≤ p.2) ∧
      (∀ t ∈ ts, t ≠ "" →
        ∃ p, (scanFrom name ts i best).2 = some p ∧ similarity name t ≤ p.2) := by
  intro ts
  induction ts with
  | nil =>
    intro i best _
    refine ⟨rfl, ?_, ?_, ?_⟩
    · intro bi bs h
      exact Or.inl h
    · intro p0 h
      exact ⟨p0, h ▸ rfl, le_refl _⟩
    · intro t ht
      exact absurd ht (List.not_mem_nil t)
  | cons t ts ih =>
    intro i best hne
    have hneT : ∀ t' ∈ ts, t' ≠ "" → lowerStr t' ≠ lowerStr name :=
      fun t' h' => hne t' (List.mem_cons_of_mem t h')
    by_cases ht : t = ""
    · have hred : scanFrom name (t :: ts) i best = scanFrom name ts (i + 1) best := by
        simp only [scanFrom, if_pos ht]
      obtain ⟨ih1, ih3, ih4, ihd⟩ := ih (i + 1) best hneT
      rw [hred]
      refine ⟨ih1, ?_, ih4, ?_⟩
      · intro bi bs hb
        rcases ih3 bi bs hb with hl | ⟨h1, h2, h3, h4⟩
        · exact Or.inl hl
        · right
          have hshift : bi - i = (bi - (i + 1)) + 1 := by omega
          refine ⟨by omega, by simp; omega, ?_, ?_⟩
          · rw [hshift, List.getD_cons_succ]; exact h3
          · rw [hshift, List.getD_cons_succ]; exact h4
      · intro t' ht'mem ht'ne
        rcases List.mem_cons.mp ht'mem with rfl | hmem
        · exact absurd ht ht'ne
        · exact ihd t' hmem ht'ne
    · have hexact : lowerStr t ≠ lowerStr name := hne t (List.mem_cons_self t ts) ht
      have hred : scanFrom name (t :: ts) i best =
          scanFrom name ts (i + 1) (updateBest i (similarity name t) best) := by
        simp only [scanFrom, if_neg ht, if_neg hexact]
      obtain ⟨q, hq_eq, hq_ge, hq_orig, hq_mono⟩ :=
        updateBest_spec i (similarity name t) best
      rw [hq_eq] at hred
      obtain ⟨ih1, ih3, ih4, ihd⟩ := ih (i + 1) (some q) hneT
      rw [hred]
      refine ⟨ih1, ?_, ?_, ?_⟩
      · intro bi bs hb
        rcases ih3 bi bs hb with hl | ⟨h1, h2, h3, h4⟩
        · have hq2 : q = (bi, bs) := by injection hl
          rcases hq_orig with ho | ho
          · right
            have hbi : bi = i ∧ bs = similarity name t := by
              have := ho ▸ hq2.symm
              rw [Prod.mk.injEq] at this
              exact ⟨this.1.symm ▸ rfl, this.2.symm ▸ rfl⟩
            obtain ⟨rfl, rfl⟩ := hbi
            refine ⟨le_refl _, by simp, ?_, ?_⟩
            · simpa [List.getD_cons_zero] using ht
            · simp [List.getD_cons_zero]
          · exact Or.inl (ho.trans (congrArg some hq2))
        · right
          have hshift : bi - i = (bi - (i + 1)) + 1 := by omega
          refine ⟨by omega, by simp; omega, ?_, ?_⟩
          · rw [hshift, List.getD_cons_succ]; exact h3
          · rw [hshift, List.getD_cons_succ]; exact h4
      · intro p0 hp0
        obtain ⟨p, hp, hp2⟩ := ih4 q rfl
        exact ⟨p, hp, le_trans (hq_mono p0 hp0) hp2⟩
      · intro t' ht'mem ht'ne
        rcases List.mem_cons.mp ht'mem with rfl | hmem
        · obtain ⟨p, hp, hp2⟩ := ih4 q rfl
          exact ⟨p, hp, le_trans hq_ge hp2⟩
        · exact ihd t' hmem ht'ne

/-- C7: the search-result selection of `set_loras` follows the
precedence (a) a result whose title equals the desired name
case-insensitively is chosen when one exists; (b) otherwise a result
attaining the highest similarity score is chosen exactly when that
score strictly exceeds 0.6; (c) otherwise the first listed result
(index 0) is chosen. -/
theorem claim_c7_precedence (name : String) (titles : List String) :
    ((∃ t ∈ titles, t ≠ "" ∧ lowerStr t = lowerStr name) →
      selectLora name titles < titles.length ∧
      lowerStr (titles.getD (selectLora name titles) "") = lowerStr name) ∧
    ((∀ t ∈ titles, t ≠ "" → lowerStr t ≠ lowerStr name) →
      ((∃ t ∈ titles, t ≠ "" ∧ (3 : ℚ) / 5 < similarity name t) →
        selectLora name titles < titles.length ∧
        titles.getD (selectLora name titles) "" ≠ "" ∧
        ∀ t ∈ titles, t ≠ "" →
          similarity name t ≤
            similarity name (titles.getD (selectLora name titles) "")) ∧
      ((∀ t ∈ titles, t ≠ "" → similarity name t ≤ (3 : ℚ) / 5) →
        selectLora name titles = 0)) := by
  constructor
  · intro hex
    obtain ⟨e, b2, hs⟩ := scanFrom_exact_complete name titles 0 none hex
    obtain ⟨-, h2, -, h4⟩ := scanFrom_exact_sound name titles 0 none e b2 hs
    have hsel : selectLora name titles = e := by simp [selectLora, hs]
    rw [hsel]
    simp only [Nat.sub_zero] at h2 h4
    exact ⟨h2, h4⟩
  · intro hno
    obtain ⟨h1, h3, -, hd⟩ := scanFrom_noexact name titles 0 none hno
    rcases hp : scanFrom name titles 0 none with ⟨f, b2⟩
    rw [hp] at h1 h3 hd
    have hf : f = none := h1
    subst hf
    cases b2 with
    | none =>
      have hsel : selectLora name titles = 0 := by simp [selectLora, hp]
      refine ⟨?_, fun _ => hsel⟩
      rintro ⟨t, htmem, htne, -⟩
      obtain ⟨p, hp2, -⟩ := hd t htmem htne
      cases hp2
    | some q =>
      obtain ⟨bi, bs⟩ := q
      rcases h3 bi bs rfl with hl | ⟨-, hb2, hb3, hb4⟩
      · cases hl
      simp only [Nat.sub_zero] at hb2 hb3 hb4
      constructor
      · rintro ⟨t, htmem, htne, hgt⟩
        obtain ⟨p, hp2, hple⟩ := hd t htmem htne
        have hpq : p = (bi, bs) := by injection hp2 with h; exact h.symm
        have hgtbs : (3 : ℚ) / 5 < bs := lt_of_lt_of_le hgt (by
          rw [hpq] at hple; exact hple)
        have hsel : selectLora name titles = bi := by
          simp [selectLora, hp, hgtbs]
        rw [hsel]
        refine ⟨hb2, hb3, ?_⟩
        intro t' ht'mem ht'ne
        obtain ⟨p', hp'2, hp'le⟩ := hd t' ht'mem ht'ne
        have hpq' : p' = (bi, bs) := by injection hp'2 with h; exact h.symm
        rw [← hb4]
        rw [hpq'] at hp'le
        exact hp'le
      · intro hall
        have hmem : titles.getD bi "" ∈ titles := by
          rw [List.getD_eq_getElem titles "" hb2]
          exact List.getElem_mem hb2
        have hle : bs ≤ (3 : ℚ) / 5 := by
          rw [hb4]
          exact hall _ hmem hb3
        have hnlt : ¬((3 : ℚ) / 5 < bs) := not_lt.mpr hle
        simp [selectLora, hp, hnlt]

/-- C7 witness: the no-exact-match branch with a similar title scoring
above 0.6 — the scan picks the similar title at index 1, not the first
result. -/
theorem claim_c7_witness :
    (∀ t ∈ ["xy", "abc"], t ≠ "" → lowerStr t ≠ lowerStr ("ab")) ∧
    (∃ t ∈ ["xy", "abc"], t ≠ "" ∧ (3 : ℚ) / 5 < similarity ("ab") t) ∧
    (selectLora ("ab") ["xy", "abc"] < (["xy", "abc"] : List String).length ∧
      (["xy", "abc"] : List String).getD (selectLora ("ab") ["xy", "abc"]) "" ≠ "" ∧
      ∀ t ∈ ["xy", "abc"], t ≠ "" →
        similarity ("ab") t ≤
          similarity ("ab")
            ((["xy", "abc"] : List String).getD (selectLora ("ab") ["xy", "abc"]) "")) := by
  have hsim : similarity ("ab") ("abc") = 4 / 5 := by
    unfold similarity ratio
    rw [show rMatches (lowerStr ("ab")).data (lowerStr ("abc")).data = 2 from by decide]
    rw [show (lowerStr ("ab")).data.length = 2 from by decide]
    rw [show (lowerStr ("abc")).data.length = 3 from by decide]
    norm_num
  have hgt : (3 : ℚ) / 5 < similarity ("ab") ("abc") := by
    rw [hsim]; norm_num
  refine ⟨by decide, ⟨"abc", by decide, by decide, hgt⟩, ?_⟩
  exact ((claim_c7_precedence ("ab") ["xy", "abc"]).2 (by decide)).1
    ⟨"abc", by decide, by decide, hgt⟩

end PixAI
